import Mathlib

namespace Overture

/-!
Verification of the overturemaps-js client library core.

This file gives a shallow embedding, in Lean 4, of the core data model and
operations of the overturemaps-js repository (src/gers.ts, src/bbox.ts,
src/duckdb.ts, src/wkb.ts, src/stac.ts), and proves or refutes the
specification claims about them.

Modelling conventions:
- JavaScript strings are Lean `String`s; the JavaScript relational operators
  on strings (`<`, `<=`) are modelled by an explicit lexicographic comparison
  on the underlying character lists (`lexLt`), matching the code-unit
  comparison JavaScript performs.
- JavaScript numbers are modelled by an arbitrary linearly ordered
  commutative ring `α` (instantiated with `ℤ` in concrete witnesses).
- Asynchronous functions performing network I/O are modelled as pure
  functions from an explicit environment (the data the network would return)
  to a pair of (list of network calls issued, in order) and
  (result or thrown error).
- `Uint8Array` geometry payloads are `List Nat`; the external WKB parser
  (wkx / @loaders.gl) is an explicit parameter of type `GeomParser`.
-/

/-! ## JavaScript string comparison

`lexLt a b` models the JavaScript expression `a < b` on strings: strict
lexicographic comparison of the character sequences. `jsStrLe a b` models
`a <= b`, which in JavaScript is the negation of `b < a`.
-/

def lexLt : List Char → List Char → Bool
  | _, [] => false
  | [], _ :: _ => true
  | a :: as, b :: bs => a < b || (a == b && lexLt as bs)

/-- Model of the JavaScript string comparison `a < b`. -/

def jsStrLt (a b : String) : Bool := lexLt a.data b.data

/-- Model of the JavaScript string comparison `a <= b` (JS evaluates it as
the negation of `b < a`). -/

def jsStrLe (a b : String) : Bool := !(lexLt b.data a.data)

/-! ## JavaScript toLowerCase

The identifiers the library handles are ASCII (hexadecimal digits and
dashes), so `String.prototype.toLowerCase` is modelled by lowering the ASCII
uppercase letters and leaving every other character unchanged. -/

def jsCharToLower (c : Char) : Char :=
  if 65 ≤ c.toNat ∧ c.toNat ≤ 90 then Char.ofNat (c.toNat + 32) else c

/-- Model of the JavaScript expression `s.toLowerCase()`. -/

def jsToLowerCase (s : String) : String := ⟨s.data.map jsCharToLower⟩

/-! ## GERS identifier validation (gers.ts, UUID_REGEX and isValidGersId)

The regex is `^[0-9a-f]{8}-[0-9a-f]{4}-[0-9a-f]{4}-[0-9a-f]{4}-[0-9a-f]{12}$`
with the case-insensitive flag: five groups of hexadecimal digits (either
case) of lengths 8, 4, 4, 4, 12, separated by single dashes. -/

def isHexDigitChar (c : Char) : Bool :=
  (48 ≤ c.toNat && c.toNat ≤ 57) ||
  (97 ≤ c.toNat && c.toNat ≤ 102) ||
  (65 ≤ c.toNat && c.toNat ≤ 70)

/-- Checker for the UUID regex shape: `lens` are the expected group lengths,
groups are separated by single `-` characters. -/

def uuidShape : List Char → List Nat → Bool
  | cs, [] => cs.isEmpty
  | cs, n :: rest =>
    (cs.take n).length == n && (cs.take n).all isHexDigitChar &&
      (match rest, cs.drop n with
       | [], tl => tl.isEmpty
       | _ :: _, c :: tl2 => c == '-' && uuidShape tl2 rest
       | _ :: _, [] => false)

/-- Model of isValidGersId (gers.ts line 43): the UUID_REGEX test. -/

def isValidGersId (s : String) : Bool :=
  uuidShape s.data [8, 4, 4, 4, 12]

/-! ## Manifest binary search (gers.ts, binarySearchManifest, lines 54-75)

The manifest is a list of `(filename, maxId)` pairs.  The TypeScript
function keeps two integer indices `left` and `right` (with
`right = manifest.length - 1` initially, hence `-1` on an empty manifest),
computes `mid = Math.floor((left + right) / 2)` and compares the searched
id against `manifest[mid][1]` with the JavaScript string comparisons.
Lean's integer division by the positive literal 2 agrees with
`Math.floor(x / 2)` on every integer, so `/` is used directly.
Out-of-range indexing cannot occur on the paths the loop actually reaches;
the embedding uses `List.getD` with a default that is never consulted. -/

def bsGo (manifest : List (String × String)) (gersId : String)
    (left right : Int) : Option String :=
  if h : left ≤ right then
    let mid : Int := (left + right) / 2
    let e := manifest.getD mid.toNat ("", "")
    if jsStrLe gersId e.2 then
      if mid = 0 ∨ jsStrLt (manifest.getD (mid - 1).toNat ("", "")).2 gersId then
        some e.1
      else
        bsGo manifest gersId left (mid - 1)
    else
      bsGo manifest gersId (mid + 1) right
  else
    none
termination_by (right + 1 - left).toNat
decreasing_by
  · have h1 : left ≤ (left + right) / 2 := by
      have h3 : left + left ≤ left + right := by omega
      have h4 := Int.ediv_le_ediv (by norm_num : (0 : Int) < 2) h3
      omega
    have h2 : (left + right) / 2 ≤ right := by
      have h3 : left + right ≤ right + right := by omega
      have h4 := Int.ediv_le_ediv (by norm_num : (0 : Int) < 2) h3
      omega
    omega
  · have h1 : left ≤ (left + right) / 2 := by
      have h3 : left + left ≤ left + right := by omega
      have h4 := Int.ediv_le_ediv (by norm_num : (0 : Int) < 2) h3
      omega
    have h2 : (left + right) / 2 ≤ right := by
      have h3 : left + right ≤ right + right := by omega
      have h4 := Int.ediv_le_ediv (by norm_num : (0 : Int) < 2) h3
      omega
    omega

/-- Model of binarySearchManifest (gers.ts lines 54-75). -/

def binarySearchManifest (manifest : List (String × String)) (gersId : String) :
    Option String :=
  bsGo manifest gersId 0 ((manifest.length : Int) - 1)

/-- Sortedness precondition on a manifest: ascending by the max-id component
under the JavaScript string order. -/

def ManifestSorted (manifest : List (String × String)) : Prop :=
  List.Pairwise (fun a b => jsStrLe a.2 b.2 = true) manifest

instance (manifest : List (String × String)) : Decidable (ManifestSorted manifest) := by
  unfold ManifestSorted
  infer_instance

/-! ## Bounding boxes (types.ts BoundingBox, bbox.ts)

Coordinates are JavaScript numbers; the embedding is generic over a linearly
ordered commutative ring `α` (witnesses instantiate `α := ℤ`). -/

structure BoundingBox (α : Type) where
  xmin : α
  ymin : α
  xmax : α
  ymax : α
deriving DecidableEq

variable {α : Type} [LinearOrderedCommRing α]

/-- Model of bboxIntersects (bbox.ts lines 64-66): strict inequalities on all
four axes. -/

def bboxIntersects (a b : BoundingBox α) : Bool :=
  decide (a.xmin < b.xmax) && decide (a.xmax > b.xmin) &&
  decide (a.ymin < b.ymax) && decide (a.ymax > b.ymin)

/-- Model of the SQL WHERE predicate built by queryParquetWithBbox
(duckdb.ts lines 110-113), evaluated on a data row's bbox struct `rowBbox`
against the query bbox: NON-strict comparisons on all four axes. -/

def duckdbBboxPredicate (rowBbox queryBbox : BoundingBox α) : Bool :=
  decide (rowBbox.xmin ≤ queryBbox.xmax) && decide (rowBbox.xmax ≥ queryBbox.xmin) &&
  decide (rowBbox.ymin ≤ queryBbox.ymax) && decide (rowBbox.ymax ≥ queryBbox.ymin)

/-! ## Rows, geometry decode, and feature assembly -/

/-- Possibly-null bbox struct column of a parquet row, with each of the four
fields possibly null (the code checks each against null separately). -/

structure RowBBox (α : Type) where
  xmin? : Option α
  ymin? : Option α
  xmax? : Option α
  ymax? : Option α
deriving DecidableEq

/-- GeoJSON geometry object (types.ts Geometry: a type tag plus
coordinates; coordinate nesting is immaterial to the claims and is
flattened to a list). -/

structure Geometry (α : Type) where
  type : String
  coordinates : List α
deriving DecidableEq

/-- A column value of a parquet row. -/

inductive ColValue (α : Type) where
  | str : String → ColValue α
  | num : α → ColValue α
  | bytes : List Nat → ColValue α
  | bboxVal : RowBBox α → ColValue α
  | null : ColValue α
deriving DecidableEq

/-- A parquet row as JavaScript sees it: an object, i.e. an ordered list of
(column name, value) pairs (the order models Object.keys order). -/

abbrev Row (α : Type) := List (String × ColValue α)

/-- GeoJSON Feature (types.ts Feature). -/

structure Feature (α : Type) where
  type : String
  id : Option String
  geometry : Geometry α
  properties : List (String × ColValue α)
  bbox : Option (α × α × α × α)
deriving DecidableEq

/-- The external WKB parser (wkx / loaders.gl), which may throw: modelled as
an explicit function returning `Except`. -/

abbrev GeomParser (α : Type) := List Nat → Except String (Geometry α)

/-- Model of wkbToGeoJSON (wkb.ts / gers.ts lines 184-192): wraps the parser
in try/catch and returns null on any parse failure; never raises. -/

def wkbToGeoJSON (parse : GeomParser α) (wkbBytes : List Nat) : Option (Geometry α) :=
  match parse wkbBytes with
  | Except.ok g => some g
  | Except.error _ => none

/-- JavaScript property access `row[key]` on a row object. -/

def rowLookup (row : Row α) (key : String) : Option (ColValue α) :=
  (row.find? (fun kv => kv.1 == key)).map (fun kv => kv.2)

/-- `row.geometry as Uint8Array | null`: the geometry column's bytes, none
when the column is absent, null, or not a byte array. -/

def rowGeometryBytes (row : Row α) : Option (List Nat) :=
  match rowLookup row "geometry" with
  | some (ColValue.bytes b) => some b
  | _ => none

/-- `row.bbox as {xmin?, ymin?, xmax?, ymax?} | null`. -/

def rowBBoxField (row : Row α) : Option (RowBBox α) :=
  match rowLookup row "bbox" with
  | some (ColValue.bboxVal b) => some b
  | _ => none

/-- The `rowBbox && rowBbox.xmin != null && ...` completeness check. -/

def completeBBox (b : RowBBox α) : Option (BoundingBox α) :=
  match b.xmin?, b.ymin?, b.xmax?, b.ymax? with
  | some x0, some y0, some x1, some y1 => some ⟨x0, y0, x1, y1⟩
  | _, _, _, _ => none

/-- `row.id as string | undefined`. -/

def rowId (row : Row α) : Option String :=
  match rowLookup row "id" with
  | some (ColValue.str s) => some s
  | _ => none

/-- Model of duckdbRowToFeature (bbox.ts lines 133-169): geometry must be
present and decodable; properties are all columns except `geometry` and
`bbox`; the row's own bbox is attached as a 4-tuple when complete.  No bbox
intersection re-check is performed on this (pushdown) path. -/

def duckdbRowToFeature (parse : GeomParser α) (row : Row α) : Option (Feature α) :=
  match rowGeometryBytes row with
  | none => none
  | some bytes =>
    match wkbToGeoJSON parse bytes with
    | none => none
    | some geom =>
      some { type := "Feature"
             id := rowId row
             geometry := geom
             properties := row.filter (fun kv => kv.1 != "geometry" && kv.1 != "bbox")
             bbox := ((rowBBoxField row).bind completeBBox).map
               (fun b => (b.xmin, b.ymin, b.xmax, b.ymax)) }

/-- Model of arrowRowToFeature (bbox.ts lines 195-251): rows with an
absent/incomplete bbox are dropped; the row bbox must strictly intersect the
query bbox; geometry must be present and decodable; properties are all
columns except `geometry` and `bbox`. -/

def arrowRowToFeature (parse : GeomParser α) (row : Row α)
    (queryBbox : BoundingBox α) : Option (Feature α) :=
  match (rowBBoxField row).bind completeBBox with
  | none => none
  | some rb =>
    if bboxIntersects queryBbox rb then
      match rowGeometryBytes row with
      | none => none
      | some bytes =>
        match wkbToGeoJSON parse bytes with
        | none => none
        | some geom =>
          some { type := "Feature"
                 id := rowId row
                 geometry := geom
                 properties := row.filter
                   (fun kv => kv.1 != "geometry" && kv.1 != "bbox")
                 bbox := some (rb.xmin, rb.ymin, rb.xmax, rb.ymax) }
    else none

/-- Model of queryParquetWithBbox (duckdb.ts lines 97-122): SQL filtering
with the non-strict bbox predicate (rows whose bbox struct has a null field
fail the SQL comparison and are excluded), followed by a LIMIT clause that
is appended only when `options?.limit` is truthy — so a limit of 0 adds NO
LIMIT clause (0 is falsy in JavaScript). -/

def queryParquetWithBbox (rows : List (Row α)) (queryBbox : BoundingBox α)
    (limit : Option Nat) : List (Row α) :=
  let matched := rows.filter fun r =>
    match (rowBBoxField r).bind completeBBox with
    | some rb => duckdbBboxPredicate rb queryBbox
    | none => false
  match limit with
  | some n => if n = 0 then matched else matched.take n
  | none => matched

/-- Model of readFeaturesFromFileDuckDB (bbox.ts lines 175-190). -/

def readFeaturesFromFileDuckDB (parse : GeomParser α) (rows : List (Row α))
    (queryBbox : BoundingBox α) (limit : Option Nat) : List (Feature α) :=
  (queryParquetWithBbox rows queryBbox limit).filterMap (duckdbRowToFeature parse)

/-- Model of readFeaturesFromFileStream (bbox.ts lines 262-308): parquet-wasm
reads at most `limit` RAW rows of the file, then each row goes through the
client-side bbox filter and geometry decode of arrowRowToFeature. -/

def readFeaturesFromFileStream (parse : GeomParser α) (rows : List (Row α))
    (queryBbox : BoundingBox α) (limit : Option Nat) : List (Feature α) :=
  (match limit with
   | some n => rows.take n
   | none => rows).filterMap (fun r => arrowRowToFeature parse r queryBbox)

/-! ## STAC spatial index (bbox.ts getFilesFromStac, lines 80-128) -/

/-- Asset entry of a STAC collection item. -/

structure StacAsset where
  href : String
deriving DecidableEq

/-- One row of the collections.parquet STAC index. -/

structure StacCollectionItem (α : Type) where
  collection : String
  itemKind : String
  bbox? : Option (BoundingBox α)
  awsHttps : Option StacAsset
  awsS3 : Option StacAsset
deriving DecidableEq

/-- Replace the first occurrence of `pat` in a character list (JavaScript
`String.prototype.replace` with a string pattern replaces only the first
occurrence). -/

def replaceFirstAux (pat repl : List Char) : List Char → List Char
  | [] => []
  | c :: rest =>
    if pat.isPrefixOf (c :: rest) then repl ++ (c :: rest).drop pat.length
    else c :: replaceFirstAux pat repl rest

/-- Model of the JavaScript expression `s.replace(pat, repl)` for string
patterns. -/

def jsReplaceFirst (s pat repl : String) : String :=
  if pat.data.isEmpty then ⟨repl.data ++ s.data⟩
  else ⟨replaceFirstAux pat.data repl.data s.data⟩

/-- URL-to-relative-path rewriting of getFilesFromStac (bbox.ts 119-121). -/

def stripAssetHref (href : String) : String :=
  jsReplaceFirst
    (jsReplaceFirst href "https://overturemaps-us-west-2.s3.us-west-2.amazonaws.com/" "")
    "s3://overturemaps-us-west-2/" ""

/-- Model of the filtering loop of getFilesFromStac (bbox.ts lines 96-127):
keep items of the requested collection with kind Feature whose bbox strictly
intersects the query bbox, and resolve the preferred asset href
(aws-https, else aws-s3; skipped when absent or the href is empty/falsy). -/

def getFilesFromStac (items : List (StacCollectionItem α)) (overtureType : String)
    (queryBbox : BoundingBox α) : List String :=
  items.filterMap fun item =>
    if item.collection == overtureType && item.itemKind == "Feature" then
      match item.bbox? with
      | some ib =>
        if bboxIntersects queryBbox ib then
          match (match item.awsHttps with
                 | some a => some a
                 | none => item.awsS3) with
          | some a => if a.href != "" then some (stripAssetHref a.href) else none
          | none => none
        else none
      | none => none
    else none

/-! ## Error taxonomy and network-call tracing

Thrown JavaScript errors are modelled as values of `OvertureError`; the
network requests a run would issue are recorded, in order, as `NetCall`
values. -/

inductive OvertureError where
  | invalidArgument : String → OvertureError
  | upstream : String → OvertureError
  | schemaError : String → OvertureError
  | decodeError : String → OvertureError
deriving DecidableEq

inductive NetCall where
  | fetchRelease : NetCall
  | fetchStacIndex : String → NetCall
  | openDataFile : String → NetCall
  | fetchCatalog : NetCall
  | fetchRegistryFile : String → NetCall
  | openFeatureFile : String → NetCall
deriving DecidableEq

/-- Environment for a readByBbox run: what the network would answer. -/

structure BboxEnv (α : Type) where
  release : Except String String
  stacItems : Except String (List (StacCollectionItem α))
  fileRows : String → List (Row α)
  useDuckDB : Bool
  parse : GeomParser α

/-- The inner `for await (const feature of featureGenerator)` loop of
readByBbox (bbox.ts lines 394-400): yields features one at a time,
increments the shared count after each yield, and returns from the whole
generator the moment `count >= limit`.  Returns the yielded features, the
updated count, and whether the generator returned early. -/

def yieldLoop (limit : Option Nat) : List (Feature α) → Nat →
    List (Feature α) × Nat × Bool
  | [], count => ([], count, false)
  | f :: fs, count =>
    match limit with
    | some n =>
      if count + 1 ≥ n then ([f], count + 1, true)
      else
        let r := yieldLoop limit fs (count + 1)
        (f :: r.1, r.2.1, r.2.2)
    | none =>
      let r := yieldLoop none fs (count + 1)
      (f :: r.1, r.2.1, r.2.2)

/-- The per-file loop of readByBbox (bbox.ts lines 384-401): for each
candidate file compute the remaining limit, open the file through the
selected backend, and run the yield loop; stop without touching further
files when the limit was reached.  The result records, in order, each file
actually opened together with the features yielded from it. -/

def streamLoop (env : BboxEnv α) (queryBbox : BoundingBox α)
    (limit : Option Nat) : List String → Nat → List (String × List (Feature α))
  | [], _ => []
  | path :: rest, count =>
    let remaining : Option Nat := limit.map (fun n => n - count)
    let feats :=
      if env.useDuckDB then
        readFeaturesFromFileDuckDB env.parse (env.fileRows path) queryBbox remaining
      else
        readFeaturesFromFileStream env.parse (env.fileRows path) queryBbox remaining
    let r := yieldLoop limit feats count
    if r.2.2 then [(path, r.1)]
    else (path, r.1) :: streamLoop env queryBbox limit rest r.2.1

/-- Model of readByBbox (bbox.ts lines 342-402, the primary variant):
validates bbox ordering, then geographic range, then resolves the release,
fetches the STAC index, and streams candidate files through the selected
backend.  Returns the network calls issued (in order) and either the thrown
error or the per-file trace of yielded features. -/

def readByBboxRun (env : BboxEnv α) (overtureType : String)
    (queryBbox : BoundingBox α) (limit : Option Nat) :
    List NetCall × Except OvertureError (List (String × List (Feature α))) :=
  if queryBbox.xmin ≥ queryBbox.xmax ∨ queryBbox.ymin ≥ queryBbox.ymax then
    ([], Except.error (OvertureError.invalidArgument
      "Invalid bounding box: xmin must be less than xmax, ymin must be less than ymax"))
  else if queryBbox.xmin < -180 ∨ queryBbox.xmax > 180 ∨
      queryBbox.ymin < -90 ∨ queryBbox.ymax > 90 then
    ([], Except.error (OvertureError.invalidArgument
      "Bounding box coordinates out of valid geographic range"))
  else
    match env.release with
    | Except.error e => ([NetCall.fetchRelease], Except.error (OvertureError.upstream e))
    | Except.ok release =>
      match env.stacItems with
      | Except.error e =>
        ([NetCall.fetchRelease, NetCall.fetchStacIndex release],
         Except.error (OvertureError.upstream e))
      | Except.ok items =>
        let paths := getFilesFromStac items overtureType queryBbox
        if paths.isEmpty then
          ([NetCall.fetchRelease, NetCall.fetchStacIndex release], Except.ok [])
        else
          let tr := streamLoop env queryBbox limit paths 0
          ([NetCall.fetchRelease, NetCall.fetchStacIndex release] ++
             tr.map (fun pf => NetCall.openDataFile pf.1),
           Except.ok tr)

/-- The features a readByBbox trace yields, in order. -/

def traceFeatures (tr : List (String × List (Feature α))) : List (Feature α) :=
  tr.flatMap (fun pf => pf.2)

/-- Model of the ALTERNATE readByBbox variant (bbox.ts lines 1189-1234 of
the concatenated sources): same pipeline on the parquet-wasm streaming
backend only, but its validation checks ONLY the ordering of the bbox —
the geographic-range check of the primary variant is absent. -/

def readByBboxAltRun (env : BboxEnv α) (overtureType : String)
    (queryBbox : BoundingBox α) (limit : Option Nat) :
    List NetCall × Except OvertureError (List (String × List (Feature α))) :=
  if queryBbox.xmin ≥ queryBbox.xmax ∨ queryBbox.ymin ≥ queryBbox.ymax then
    ([], Except.error (OvertureError.invalidArgument
      "Invalid bounding box: xmin must be less than xmax, ymin must be less than ymax"))
  else
    match env.release with
    | Except.error e => ([NetCall.fetchRelease], Except.error (OvertureError.upstream e))
    | Except.ok release =>
      match env.stacItems with
      | Except.error e =>
        ([NetCall.fetchRelease, NetCall.fetchStacIndex release],
         Except.error (OvertureError.upstream e))
      | Except.ok items =>
        let paths := getFilesFromStac items overtureType queryBbox
        if paths.isEmpty then
          ([NetCall.fetchRelease, NetCall.fetchStacIndex release], Except.ok [])
        else
          let tr := streamLoop { env with useDuckDB := false } queryBbox limit paths 0
          ([NetCall.fetchRelease, NetCall.fetchStacIndex release] ++
             tr.map (fun pf => NetCall.openDataFile pf.1),
           Except.ok tr)

/-! ## GERS registry lookup (gers.ts, stac.ts) -/

/-- Registry section of the STAC catalog (stac.ts StacRegistry). -/

structure StacRegistry where
  path : String
  manifest : List (String × String)

/-- STAC catalog (stac.ts StacCatalog; only the fields the core reads). -/

structure StacCatalog where
  latest : String
  registry : Option StacRegistry

/-- One row of a registry shard file (the columns queryGersRegistry reads). -/

structure RegistryRow (α : Type) where
  id : Option String
  path : Option String
  bbox : RowBBox α
  version : Option α
  firstSeen : Option String
  lastSeen : Option String
  lastChanged : Option String

/-- Result of queryGersRegistry (types: GersRegistryResult). -/

structure GersRegistryResult (α : Type) where
  filepath : String
  bbox : Option (BoundingBox α)
  version : Option α
  firstSeen : Option String
  lastSeen : Option String
  lastChanged : Option String

/-- Environment for the GERS lookup paths: catalog answer, registry shard
contents by filename, feature file contents by filepath, and the WKB
parser. -/

structure GersEnv (α : Type) where
  catalog : Except String StacCatalog
  registryRows : String → Except String (List (RegistryRow α))
  featureRows : String → Except String (List (Row α))
  parse : GeomParser α

/-- The row-matching loop of queryRegistryById (gers.ts lines 120-126):
first row whose id, lowercased, equals the (already lowercased) searched
id. -/

def findRegistryRow (rows : List (RegistryRow α)) (gersIdLower : String) :
    Option (RegistryRow α) :=
  rows.find? fun r =>
    match r.id with
    | some s => jsToLowerCase s == gersIdLower
    | none => false

/-- The full-path construction of queryGersRegistry (gers.ts lines 259-260). -/

def registryFullPath (release path : String) : String :=
  if (match path.data with
      | c :: _ => c == '/'
      | [] => false) then
    "overturemaps-us-west-2/release/" ++ release ++ path
  else
    "overturemaps-us-west-2/release/" ++ release ++ "/" ++ path

/-- Model of queryGersRegistry (gers.ts lines 200-288): validate the id
shape BEFORE any network access, lowercase it, fetch the catalog, binary
search the manifest for the registry shard, fetch the shard, and look the
id up in it. -/

def queryGersRegistry (env : GersEnv α) (gersId : String) :
    List NetCall × Except OvertureError (Option (GersRegistryResult α)) :=
  if isValidGersId gersId then
    let lower := jsToLowerCase gersId
    match env.catalog with
    | Except.error e => ([NetCall.fetchCatalog], Except.error (OvertureError.upstream e))
    | Except.ok catalog =>
      match catalog.registry with
      | none =>
        ([NetCall.fetchCatalog],
         Except.error (OvertureError.schemaError "Registry configuration not found in STAC catalog"))
      | some registry =>
        if registry.manifest.isEmpty then
          ([NetCall.fetchCatalog],
           Except.error (OvertureError.schemaError "Registry manifest is empty in STAC catalog"))
        else
          match binarySearchManifest registry.manifest lower with
          | none => ([NetCall.fetchCatalog], Except.ok none)
          | some registryFile =>
            match env.registryRows registryFile with
            | Except.error e =>
              ([NetCall.fetchCatalog, NetCall.fetchRegistryFile registryFile],
               Except.error (OvertureError.upstream e))
            | Except.ok rows =>
              match findRegistryRow rows lower with
              | none =>
                ([NetCall.fetchCatalog, NetCall.fetchRegistryFile registryFile],
                 Except.ok none)
              | some row =>
                match row.path with
                | none =>
                  ([NetCall.fetchCatalog, NetCall.fetchRegistryFile registryFile],
                   Except.ok none)
                | some path =>
                  ([NetCall.fetchCatalog, NetCall.fetchRegistryFile registryFile],
                   Except.ok (some
                     { filepath := registryFullPath catalog.latest path
                       bbox := completeBBox row.bbox
                       version := row.version
                       firstSeen := row.firstSeen
                       lastSeen := row.lastSeen
                       lastChanged := row.lastChanged }))
  else
    ([], Except.error (OvertureError.invalidArgument
      ("Invalid GERS ID format: " ++ gersId ++ ". Expected UUID format.")))

/-- The row-matching loop of queryFeatureById (gers.ts lines 160-169):
first row of the feature file whose id, lowercased, equals the searched
(lowercased) id; the raw geometry bytes are kept on the row. -/

def queryFeatureById (rows : List (Row α)) (gersIdLower : String) : Option (Row α) :=
  rows.find? fun r =>
    match rowId r with
    | some s => jsToLowerCase s == gersIdLower
    | none => false

/-- Model of getFeatureByGersId (gers.ts lines 297-362): validate the id
shape BEFORE any network access, lowercase it, resolve the registry entry
(given via options, or through queryGersRegistry), stream the feature file,
build properties from every column EXCEPT `geometry`, and decode the
geometry — a missing or undecodable geometry is a hard error on this
single-feature path. -/

def getFeatureByGersId (env : GersEnv α) (registryOpt : Option (GersRegistryResult α))
    (gersId : String) :
    List NetCall × Except OvertureError (Option (Feature α)) :=
  if isValidGersId gersId then
    let lower := jsToLowerCase gersId
    let reg : List NetCall × Except OvertureError (Option (GersRegistryResult α)) :=
      match registryOpt with
      | some rr => ([], Except.ok (some rr))
      | none => queryGersRegistry env lower
    match reg with
    | (evs, Except.error e) => (evs, Except.error e)
    | (evs, Except.ok none) => (evs, Except.ok none)
    | (evs, Except.ok (some rr)) =>
      match env.featureRows rr.filepath with
      | Except.error e =>
        (evs ++ [NetCall.openFeatureFile rr.filepath],
         Except.error (OvertureError.upstream e))
      | Except.ok rows =>
        match queryFeatureById rows lower with
        | none => (evs ++ [NetCall.openFeatureFile rr.filepath], Except.ok none)
        | some row =>
          match rowGeometryBytes row with
          | none =>
            (evs ++ [NetCall.openFeatureFile rr.filepath],
             Except.error (OvertureError.decodeError "Feature has no valid geometry"))
          | some bytes =>
            match wkbToGeoJSON env.parse bytes with
            | none =>
              (evs ++ [NetCall.openFeatureFile rr.filepath],
               Except.error (OvertureError.decodeError "Failed to parse geometry"))
            | some geom =>
              (evs ++ [NetCall.openFeatureFile rr.filepath],
               Except.ok (some
                 { type := "Feature"
                   id := some lower
                   geometry := geom
                   properties := row.filter (fun kv => kv.1 != "geometry")
                   bbox := rr.bbox.map (fun b => (b.xmin, b.ymin, b.xmax, b.ymax)) }))
  else
    ([], Except.error (OvertureError.invalidArgument
      ("Invalid GERS ID format: " ++ gersId ++ ". Expected UUID format.")))

/-! ## DuckDB availability probe (duckdb.ts lines 29-87)

`duckdbAvailable` starts at null; the first call to isDuckDBAvailable runs
the initialization probe, whose boolean outcome (success or any caught
failure) is stored in `duckdbAvailable`; every later call returns the
stored value without probing.  The probe's outcome in a given process is an
environment fact, passed here as one boolean per call. -/

/-- One sequential call to isDuckDBAvailable: given the cached state and the
probe outcome the environment would produce, return the call result, the
new cached state, and whether the initialization probe ran. -/

def isDuckDBAvailableCall (cached : Option Bool) (probeOutcome : Bool) :
    Bool × Option Bool × Bool :=
  match cached with
  | some b => (b, some b, false)
  | none => (probeOutcome, some probeOutcome, true)

/-- Run a sequence of isDuckDBAvailable calls from a cached state, recording
for each call its result and whether it probed. -/

def runAvailabilityCalls : Option Bool → List Bool → List (Bool × Bool)
  | _, [] => []
  | cached, e :: es =>
    let r := isDuckDBAvailableCall cached e
    (r.1, r.2.2) :: runAvailabilityCalls r.2.1 es

/-! ## Concrete inputs used by witnesses and counterexamples -/

/-- A WKB parser that decodes every byte payload to a fixed point. -/

def demoParse : GeomParser Int := fun _ =>
  Except.ok { type := "Point", coordinates := [1, 2] }

/-- A WKB parser that rejects every byte payload. -/

def demoFailParse : GeomParser Int := fun _ => Except.error "bad wkb"

/-- The manifest of the specification scenario. -/

def demoManifest : List (String × String) :=
  [("a", "3000"), ("b", "6000"), ("c", "9000")]

/-- A query box ending at x = 10. -/

def demoQueryBox : BoundingBox Int := ⟨0, 0, 10, 10⟩

/-- A row whose bbox starts exactly at x = 10: it touches demoQueryBox on an
edge without overlapping it. -/

def demoTouchRow : Row Int :=
  [("id", ColValue.str "r1"),
   ("bbox", ColValue.bboxVal ⟨some 10, some 0, some 20, some 10⟩),
   ("geometry", ColValue.bytes [1])]

/-- A row whose bbox strictly overlaps demoQueryBox. -/

def demoInsideRow : Row Int :=
  [("id", ColValue.str "r2"),
   ("bbox", ColValue.bboxVal ⟨some 1, some 1, some 2, some 2⟩),
   ("geometry", ColValue.bytes [2])]

/-- An in-bbox row whose geometry column is null. -/

def demoNoGeomRow : Row Int :=
  [("id", ColValue.str "r3"),
   ("bbox", ColValue.bboxVal ⟨some 1, some 1, some 2, some 2⟩),
   ("geometry", ColValue.null)]

/-- A STAC index item covering the demo query box. -/

def demoStacItem : StacCollectionItem Int :=
  { collection := "place"
    itemKind := "Feature"
    bbox? := some ⟨0, 0, 50, 50⟩
    awsHttps := some ⟨"f1"⟩
    awsS3 := none }

/-- Demo environment with the DuckDB backend selected. -/

def demoBboxEnv : BboxEnv Int :=
  { release := Except.ok "2025-01-01.0"
    stacItems := Except.ok [demoStacItem]
    fileRows := fun _ => [demoInsideRow]
    useDuckDB := true
    parse := demoParse }

/-- The feature demoInsideRow decodes to. -/

def demoInsideFeature : Feature Int :=
  { type := "Feature"
    id := some "r2"
    geometry := { type := "Point", coordinates := [1, 2] }
    properties := [("id", ColValue.str "r2")]
    bbox := some (1, 1, 2, 2) }

/-- A row's geometry is bad when the geometry column is missing/null or its
bytes fail to parse. -/

def BadGeometry (parse : GeomParser α) (row : Row α) : Prop :=
  rowGeometryBytes row = none ∨
  ∃ b e, rowGeometryBytes row = some b ∧ parse b = Except.error e

/-- A syntactically valid (already lowercase) GERS id. -/

def demoValidId : String := "abcdef01-2345-6789-abcd-ef0123456789"

/-- A feature-file row matching demoValidId whose geometry column is null. -/

def demoNoGeomFeatureRow : Row Int :=
  [("id", ColValue.str "abcdef01-2345-6789-abcd-ef0123456789"),
   ("geometry", ColValue.null)]

/-- A feature-file row matching demoValidId that carries a bbox column and
decodable geometry bytes. -/

def demoGersRow : Row Int :=
  [("id", ColValue.str "abcdef01-2345-6789-abcd-ef0123456789"),
   ("bbox", ColValue.bboxVal ⟨some 1, some 1, some 2, some 2⟩),
   ("geometry", ColValue.bytes [3])]

/-- Registry result pointing at the demo feature file. -/

def demoRegistryResult : GersRegistryResult Int :=
  { filepath := "release/f"
    bbox := none
    version := none
    firstSeen := none
    lastSeen := none
    lastChanged := none }

/-- GERS environment whose feature file holds the null-geometry row. -/

def demoGersEnvNoGeom : GersEnv Int :=
  { catalog := Except.ok
      { latest := "2025-01-01.0"
        registry := some { path := "p", manifest := demoManifest } }
    registryRows := fun _ => Except.ok []
    featureRows := fun _ => Except.ok [demoNoGeomFeatureRow]
    parse := demoParse }

/-- GERS environment whose feature file holds the bbox-carrying row. -/

def demoGersEnvBBoxRow : GersEnv Int :=
  { catalog := Except.ok
      { latest := "2025-01-01.0"
        registry := some { path := "p", manifest := demoManifest } }
    registryRows := fun _ => Except.ok []
    featureRows := fun _ => Except.ok [demoGersRow]
    parse := demoParse }

/-! ## Theorems -/

theorem lexLt_trans {a b c : List Char} (hab : lexLt a b = true)
    (hbc : lexLt b c = true) : lexLt a c = true := by
  induction a generalizing b c with
  | nil =>
    cases b with
    | nil => simp [lexLt] at hab
    | cons y ys =>
      cases c with
      | nil => simp [lexLt] at hbc
      | cons z zs => simp [lexLt]
  | cons x xs ih =>
    cases b with
    | nil => simp [lexLt] at hab
    | cons y ys =>
      cases c with
      | nil => simp [lexLt] at hbc
      | cons z zs =>
        simp only [lexLt, Bool.or_eq_true, Bool.and_eq_true, beq_iff_eq,
          decide_eq_true_eq] at hab hbc ⊢
        rcases hab with hxy | ⟨hxy, hr⟩
        · rcases hbc with hyz | ⟨hyz, _⟩
          · exact Or.inl (lt_trans hxy hyz)
          · exact Or.inl (hyz ▸ hxy)
        · rcases hbc with hyz | ⟨hyz, hr2⟩
          · exact Or.inl (hxy ▸ hyz)
          · exact Or.inr ⟨hxy.trans hyz, ih hr hr2⟩

theorem lexLt_connex {a b : List Char} (hab : lexLt a b = false)
    (hba : lexLt b a = false) : a = b := by
  induction a generalizing b with
  | nil =>
    cases b with
    | nil => rfl
    | cons y ys => simp [lexLt] at hab
  | cons x xs ih =>
    cases b with
    | nil => simp [lexLt] at hba
    | cons y ys =>
      simp only [lexLt, Bool.or_eq_false_iff, Bool.and_eq_false_iff,
        beq_eq_false_iff_ne, ne_eq, decide_eq_false_iff_not] at hab hba
      rcases hab with ⟨hxy, h1⟩
      rcases hba with ⟨hyx, h2⟩
      have hxyeq : x = y := le_antisymm (not_lt.mp hyx) (not_lt.mp hxy)
      rcases h1 with h1 | h1
      · exact absurd hxyeq h1
      · rcases h2 with h2 | h2
        · exact absurd hxyeq.symm h2
        · exact congrArg₂ List.cons hxyeq (ih h1 h2)

theorem lexLt_irrefl (a : List Char) : lexLt a a = false := by
  induction a with
  | nil => rfl
  | cons x xs ih => simp [lexLt, ih]

/-- Mixed transitivity: from `a <= b` (i.e. not `b < a`) and `b < c`
conclude `a < c`, in the boolean form the binary-search proof needs. -/
theorem lexLt_of_le_of_lt {a b c : List Char} (hab : lexLt b a = false)
    (hbc : lexLt b c = true) : lexLt a c = true := by
  cases hac : lexLt a c with
  | true => rfl
  | false =>
    cases hca : lexLt c a with
    | true => exact absurd (lexLt_trans hbc hca) (by simp [hab])
    | false => exact absurd ((lexLt_connex hac hca) ▸ hbc) (by simp [hab])

theorem lexLt_of_lt_of_le {a b c : List Char} (hab : lexLt a b = true)
    (hbc : lexLt c b = false) : lexLt a c = true := by
  cases hac : lexLt a c with
  | true => rfl
  | false =>
    cases hca : lexLt c a with
    | true => exact absurd (lexLt_trans hca hab) (by simp [hbc])
    | false => exact absurd ((lexLt_connex hca hac) ▸ hab) (by simp [hbc])

theorem toNat_ofNat_valid (n : Nat) (h : Nat.isValidChar n) :
    (Char.ofNat n).toNat = n := by
  rw [Char.ofNat, dif_pos h]
  simp [Char.ofNatAux, Char.toNat, UInt32.ofNat', UInt32.toNat, BitVec.toNat_ofNatLt]

theorem jsCharToLower_idem (c : Char) :
    jsCharToLower (jsCharToLower c) = jsCharToLower c := by
  unfold jsCharToLower
  split
  · next h =>
    have hv : Nat.isValidChar (c.toNat + 32) := by left; omega
    rw [toNat_ofNat_valid _ hv, if_neg (by omega)]
  · rfl

theorem jsToLowerCase_idem (s : String) :
    jsToLowerCase (jsToLowerCase s) = jsToLowerCase s := by
  unfold jsToLowerCase
  simp only [List.map_map]
  exact congrArg String.mk (List.map_congr_left fun c _ => jsCharToLower_idem c)

theorem isHexDigitChar_toLower (c : Char) :
    isHexDigitChar (jsCharToLower c) = isHexDigitChar c := by
  unfold jsCharToLower
  split
  · next h =>
    have hv : Nat.isValidChar (c.toNat + 32) := by left; omega
    simp only [isHexDigitChar, toNat_ofNat_valid _ hv]
    rw [Bool.eq_iff_iff]
    simp only [Bool.or_eq_true, Bool.and_eq_true, decide_eq_true_eq]
    omega
  · rfl

theorem dash_toNat : ('-' : Char).toNat = 45 := by decide

theorem jsCharToLower_eq_dash_iff (c : Char) :
    (jsCharToLower c == '-') = (c == '-') := by
  unfold jsCharToLower
  split
  · next h =>
    have hv : Nat.isValidChar (c.toNat + 32) := by left; omega
    rw [Bool.eq_iff_iff]
    simp only [beq_iff_eq]
    constructor
    · intro hc
      have h2 : (Char.ofNat (c.toNat + 32)).toNat = ('-' : Char).toNat := by rw [hc]
      rw [toNat_ofNat_valid _ hv, dash_toNat] at h2
      omega
    · intro hc
      rw [hc, dash_toNat] at h
      omega
  · rfl

theorem isEmpty_map {β γ : Type} (f : β → γ) (l : List β) :
    (l.map f).isEmpty = l.isEmpty := by
  cases l <;> rfl

theorem all_comp_toLower (l : List Char) :
    l.all (fun c => isHexDigitChar (jsCharToLower c)) = l.all isHexDigitChar := by
  induction l with
  | nil => rfl
  | cons c cl ih => simp [List.all_cons, ih, isHexDigitChar_toLower]

theorem uuidShape_map_toLower (lens : List Nat) (cs : List Char) :
    uuidShape (cs.map jsCharToLower) lens = uuidShape cs lens := by
  induction lens generalizing cs with
  | nil => simp [uuidShape, isEmpty_map]
  | cons n rest ih =>
    simp only [uuidShape, ← List.map_take, ← List.map_drop, List.length_map,
      List.all_map, Function.comp_def, all_comp_toLower]
    cases rest with
    | nil =>
      rcases hd : cs.drop n with _ | ⟨d, tl2⟩ <;> simp [hd, isEmpty_map]
    | cons m ms =>
      rcases hd : cs.drop n with _ | ⟨d, tl2⟩
      · rfl
      · simp only [List.map_cons]
        rw [jsCharToLower_eq_dash_iff, ih tl2]

theorem isValidGersId_toLower (s : String) :
    isValidGersId (jsToLowerCase s) = isValidGersId s := by
  unfold isValidGersId jsToLowerCase
  exact uuidShape_map_toLower _ s.data

theorem mid_ge_left (left right : Int) (h : left ≤ right) :
    left ≤ (left + right) / 2 := by
  have h2 : left + left ≤ left + right := by omega
  have := Int.ediv_le_ediv (by norm_num : (0 : Int) < 2) h2
  omega

theorem mid_le_right (left right : Int) (h : left ≤ right) :
    (left + right) / 2 ≤ right := by
  have h2 : left + right ≤ right + right := by omega
  have := Int.ediv_le_ediv (by norm_num : (0 : Int) < 2) h2
  omega

theorem jsStrLe_refl (s : String) : jsStrLe s s = true := by
  simp [jsStrLe, lexLt_irrefl]

theorem getD_eq_get {β : Type} (l : List β) (d : β) {i : Nat} (h : i < l.length) :
    l.getD i d = l.get ⟨i, h⟩ := by
  simp [List.getD_eq_getElem?_getD, List.getElem?_eq_getElem h]

theorem sorted_getD_le (m : List (String × String)) (hs : ManifestSorted m)
    {i j : Nat} (hij : i ≤ j) (hj : j < m.length) :
    jsStrLe (m.getD i ("", "")).2 (m.getD j ("", "")).2 = true := by
  rcases lt_or_eq_of_le hij with hlt | heq
  · have hi : i < m.length := lt_trans hlt hj
    have hp := (List.pairwise_iff_get.mp hs) ⟨i, hi⟩ ⟨j, hj⟩ (by simpa using hlt)
    rw [getD_eq_get m ("", "") hi, getD_eq_get m ("", "") hj]
    exact hp
  · rw [heq]
    exact jsStrLe_refl _

/-- Main loop invariant proof for bsGo: if `i0` is an index whose max id is
at least the searched key while every earlier max id is strictly below the
key (i.e. `i0` is the first such index), and the search interval
`[left, right]` contains `i0` and stays inside the manifest, the loop
returns the filename at `i0`. -/
theorem bsGo_eq_some (m : List (String × String)) (k : String)
    (hs : ManifestSorted m) (i0 : Nat) (hi0 : i0 < m.length)
    (hle : jsStrLe k (m.getD i0 ("", "")).2 = true)
    (hmin : ∀ j, j < i0 → jsStrLt (m.getD j ("", "")).2 k = true)
    (left right : Int) (h0 : 0 ≤ left) (hrlen : right < (m.length : Int))
    (hli : left ≤ (i0 : Int)) (hir : (i0 : Int) ≤ right) :
    bsGo m k left right = some (m.getD i0 ("", "")).1 := by
  have hlr : left ≤ right := le_trans hli hir
  have hm1 : left ≤ (left + right) / 2 := mid_ge_left left right hlr
  have hm2 : (left + right) / 2 ≤ right := mid_le_right left right hlr
  rw [bsGo, dif_pos hlr]
  set mid : Int := (left + right) / 2 with hmiddef
  have hmidnn : 0 ≤ mid := le_trans h0 hm1
  have htn : ((mid.toNat : Nat) : Int) = mid := Int.toNat_of_nonneg hmidnn
  have hmidlen : mid.toNat < m.length := by omega
  by_cases hb : jsStrLe k (m.getD mid.toNat ("", "")).2 = true
  · rw [if_pos hb]
    by_cases hacc : mid = 0 ∨ jsStrLt (m.getD (mid - 1).toNat ("", "")).2 k = true
    · rw [if_pos hacc]
      have hmi : mid.toNat = i0 := by
        rcases lt_trichotomy i0 mid.toNat with hlt | heq | hgt
        · exfalso
          have hmid1 : 1 ≤ mid.toNat := by omega
          rcases hacc with hz | hpred
          · omega
          · have hij : i0 ≤ mid.toNat - 1 := by omega
            have hl : mid.toNat - 1 < m.length := by omega
            have hsle := sorted_getD_le m hs hij hl
            have hp1 : (mid - 1).toNat = mid.toNat - 1 := by omega
            rw [hp1] at hpred
            unfold jsStrLt at hpred
            have hsleF : lexLt (m.getD (mid.toNat - 1) ("", "")).2.data
                (m.getD i0 ("", "")).2.data = false := by
              unfold jsStrLe at hsle
              simpa using hsle
            have hleF : lexLt (m.getD i0 ("", "")).2.data k.data = false := by
              have hcopy := hle
              unfold jsStrLe at hcopy
              simpa using hcopy
            have hcontr := lexLt_of_le_of_lt hsleF hpred
            rw [hcontr] at hleF
            simp at hleF
        · exact heq.symm
        · exfalso
          have := hmin mid.toNat hgt
          unfold jsStrLt at this
          unfold jsStrLe at hb
          rw [this] at hb
          simp at hb
      rw [hmi]
    · rw [if_neg hacc]
      push_neg at hacc
      obtain ⟨hmz, hpred⟩ := hacc
      have hmid1 : 1 ≤ mid := lt_of_le_of_ne hmidnn (Ne.symm hmz)
      have hp1 : (mid - 1).toNat = mid.toNat - 1 := by omega
      have hi0le : i0 ≤ mid.toNat - 1 := by
        by_contra hcon
        have hj : mid.toNat - 1 < i0 := by omega
        have := hmin (mid.toNat - 1) hj
        rw [hp1, this] at hpred
        exact hpred rfl
      exact bsGo_eq_some m k hs i0 hi0 hle hmin left (mid - 1) h0 (by omega)
        hli (by omega)
  · rw [if_neg hb]
    have hmid_lt_i0 : mid.toNat < i0 := by
      by_contra hcon
      have hij : i0 ≤ mid.toNat := by omega
      have hsle := sorted_getD_le m hs hij hmidlen
      have hbf : lexLt (m.getD mid.toNat ("", "")).2.data k.data = true := by
        have hcopy : jsStrLe k (m.getD mid.toNat ("", "")).2 = false :=
          Bool.eq_false_iff.mpr hb
        unfold jsStrLe at hcopy
        simpa using hcopy
      have hsleF : lexLt (m.getD mid.toNat ("", "")).2.data
          (m.getD i0 ("", "")).2.data = false := by
        unfold jsStrLe at hsle
        simpa using hsle
      have hleF : lexLt (m.getD i0 ("", "")).2.data k.data = false := by
        have hcopy := hle
        unfold jsStrLe at hcopy
        simpa using hcopy
      have hcontr := lexLt_of_le_of_lt hsleF hbf
      rw [hcontr] at hleF
      simp at hleF
    exact bsGo_eq_some m k hs i0 hi0 hle hmin (mid + 1) right (by omega)
      hrlen (by omega) hir
termination_by (right + 1 - left).toNat
decreasing_by
  · omega
  · omega

/-- When every max id in the manifest is strictly below the key, the loop
returns null. -/
theorem bsGo_eq_none (m : List (String × String)) (k : String)
    (hall : ∀ j, j < m.length → jsStrLt (m.getD j ("", "")).2 k = true)
    (left right : Int) (h0 : 0 ≤ left) (hrlen : right < (m.length : Int)) :
    bsGo m k left right = none := by
  by_cases hlr : left ≤ right
  · have hm1 : left ≤ (left + right) / 2 := mid_ge_left left right hlr
    have hm2 : (left + right) / 2 ≤ right := mid_le_right left right hlr
    rw [bsGo, dif_pos hlr]
    set mid : Int := (left + right) / 2 with hmiddef
    have hmidnn : 0 ≤ mid := le_trans h0 hm1
    have hmidlen : mid.toNat < m.length := by omega
    have hlt := hall mid.toNat hmidlen
    unfold jsStrLt at hlt
    have hb : jsStrLe k (m.getD mid.toNat ("", "")).2 = false := by
      unfold jsStrLe
      simpa using hlt
    rw [if_neg (by intro hcc; rw [hcc] at hb; simp at hb)]
    exact bsGo_eq_none m k hall (mid + 1) right (by omega) hrlen
  · rw [bsGo, dif_neg hlr]
termination_by (right + 1 - left).toNat
decreasing_by
  · omega

theorem touching_not_intersect (a b : BoundingBox α) (h : a.xmax = b.xmin) :
    bboxIntersects a b = false := by
  unfold bboxIntersects
  rw [h]
  simp [lt_irrefl]

theorem touching_not_intersect_symm (a b : BoundingBox α) (h : a.xmax = b.xmin) :
    bboxIntersects b a = false := by
  unfold bboxIntersects
  rw [← h]
  simp [lt_irrefl]

/-- Claim C7: bboxIntersects is symmetric: for every pair of bounding boxes
A and B, bboxIntersects A B equals bboxIntersects B A. -/
theorem claim7_bboxIntersects_symm {α : Type} [LinearOrderedCommRing α]
    (a b : BoundingBox α) : bboxIntersects a b = bboxIntersects b a := by
  unfold bboxIntersects
  rw [Bool.eq_iff_iff]
  simp only [Bool.and_eq_true, decide_eq_true_eq]
  constructor
  · rintro ⟨⟨⟨h1, h2⟩, h3⟩, h4⟩
    exact ⟨⟨⟨h2, h1⟩, h4⟩, h3⟩
  · rintro ⟨⟨⟨h1, h2⟩, h3⟩, h4⟩
    exact ⟨⟨⟨h2, h1⟩, h4⟩, h3⟩

/-- Claim C10: binarySearchManifest applied to the empty manifest returns
null for every key: with length 0 the initial interval is [0, -1], the loop
body is never entered (so the manifest is never indexed), and the function
is total (it is a terminating Lean function on all inputs by
construction). -/
theorem claim10_binarySearchManifest_empty (k : String) :
    binarySearchManifest [] k = none := by
  rw [binarySearchManifest, bsGo]
  norm_num

/-- Claim C1: on a manifest sorted ascending by max key, binarySearchManifest
returns the filename of the shard i satisfying maxKey[i-1] < k <= maxKey[i]
(with shard 0 accepting every k <= maxKey[0]), and returns null when k is
greater than every max key. -/
theorem claim1_binarySearchManifest_locates (m : List (String × String))
    (hs : ManifestSorted m) (k : String) :
    (∀ i : Nat, i < m.length →
        jsStrLe k (m.getD i ("", "")).2 = true →
        (i = 0 ∨ jsStrLt (m.getD (i - 1) ("", "")).2 k = true) →
        binarySearchManifest m k = some (m.getD i ("", "")).1)
    ∧ ((∀ i : Nat, i < m.length → jsStrLt (m.getD i ("", "")).2 k = true) →
        binarySearchManifest m k = none) := by
  constructor
  · intro i hi hle hacc
    have hmin : ∀ j, j < i → jsStrLt (m.getD j ("", "")).2 k = true := by
      intro j hj
      rcases hacc with hz | hpred
      · omega
      · have hij : j ≤ i - 1 := by omega
        have hl : i - 1 < m.length := by omega
        have hsle := sorted_getD_le m hs hij hl
        unfold jsStrLt at hpred ⊢
        have hsleF : lexLt (m.getD (i - 1) ("", "")).2.data
            (m.getD j ("", "")).2.data = false := by
          unfold jsStrLe at hsle
          simpa using hsle
        exact lexLt_of_le_of_lt hsleF hpred
    exact bsGo_eq_some m k hs i hi hle hmin 0 ((m.length : Int) - 1)
      le_rfl (by omega) (by omega) (by omega)
  · intro hall
    exact bsGo_eq_none m k hall 0 ((m.length : Int) - 1) le_rfl (by omega)

/-- Witness for C1 at the specification scenario manifest. -/
theorem claim1_witness :
    binarySearchManifest demoManifest "5000" = some "b" ∧
    binarySearchManifest demoManifest "9000" = some "c" ∧
    binarySearchManifest demoManifest "9500" = none := by
  refine ⟨?_, ?_, ?_⟩
  · exact (claim1_binarySearchManifest_locates demoManifest (by decide) "5000").1
      1 (by decide) (by decide) (Or.inr (by decide))
  · exact (claim1_binarySearchManifest_locates demoManifest (by decide) "9000").1
      2 (by decide) (by decide) (Or.inr (by decide))
  · exact (claim1_binarySearchManifest_locates demoManifest (by decide) "9500").2
      (by decide)

/-- Claim C9: the DuckDB availability probe runs at most once per process:
the first isDuckDBAvailable call runs the initialization probe and caches
its boolean outcome, every later call returns the cached outcome without
probing, and a failed probe (outcome false, any thrown error having been
caught) permanently selects the fallback for every subsequent call. -/
theorem claim9_availability_probe_once :
    (∀ (e0 : Bool) (es : List Bool),
        runAvailabilityCalls none (e0 :: es) =
          (e0, true) :: es.map (fun _ => (e0, false)))
    ∧ (∀ calls : List Bool,
        ((runAvailabilityCalls none calls).countP (fun r => r.2)) ≤ 1) := by
  have hcached : ∀ (es : List Bool) (b : Bool),
      runAvailabilityCalls (some b) es = es.map (fun _ => (b, false)) := by
    intro es
    induction es with
    | nil => intro b; rfl
    | cons e es ih => intro b; simp [runAvailabilityCalls, isDuckDBAvailableCall, ih]
  have hcount : ∀ (es : List Bool) (b : Bool),
      (es.map (fun _ => (b, false))).countP (fun r : Bool × Bool => r.2) = 0 := by
    intro es b
    induction es with
    | nil => rfl
    | cons e es ih => simp [List.countP_cons, ih]
  constructor
  · intro e0 es
    simp [runAvailabilityCalls, isDuckDBAvailableCall, hcached]
  · intro calls
    cases calls with
    | nil => simp [runAvailabilityCalls]
    | cons e es =>
      simp [runAvailabilityCalls, isDuckDBAvailableCall, hcached, List.countP_cons,
        hcount]

/-- Counterexample to claim C3 as stated: a row whose bbox merely touches
the query bbox at an edge fails the strict overlap test, yet the DuckDB
pushdown pipeline — whose SQL predicate uses non-strict comparisons and
whose row-to-feature conversion performs no client-side bbox re-check —
returns it as a feature. -/
theorem claim3_counterexample :
    bboxIntersects demoQueryBox (BoundingBox.mk 10 0 20 10 : BoundingBox Int) = false ∧
    (readFeaturesFromFileDuckDB demoParse [demoTouchRow] demoQueryBox none).length = 1 := by
  constructor
  · rfl
  · rfl

/-- Claim C3 (amended): rectangles that merely touch at an edge are not
overlapping under bboxIntersects, and such candidate files and rows are
excluded on the client-side filter path (the STAC file filter and
arrowRowToFeature); the pushdown path, however, uses non-strict SQL
comparisons and does not re-filter returned rows, so a row whose bbox only
touches the query bbox passes queryParquetWithBbox. -/
theorem claim3_touching_edge {α : Type} [LinearOrderedCommRing α] :
    (∀ a b : BoundingBox α, a.xmax = b.xmin →
        bboxIntersects a b = false ∧ bboxIntersects b a = false)
    ∧ (∀ (parse : GeomParser α) (row : Row α) (q rb : BoundingBox α),
        (rowBBoxField row).bind completeBBox = some rb → q.xmax = rb.xmin →
        arrowRowToFeature parse row q = none)
    ∧ (∀ (t : String) (q : BoundingBox α) (pre post : List (StacCollectionItem α))
        (item : StacCollectionItem α) (ib : BoundingBox α),
        item.bbox? = some ib → q.xmax = ib.xmin →
        getFilesFromStac (pre ++ item :: post) t q =
          getFilesFromStac (pre ++ post) t q)
    ∧ (∀ (row : Row α) (q rb : BoundingBox α),
        (rowBBoxField row).bind completeBBox = some rb → rb.xmin = q.xmax →
        rb.xmax ≥ q.xmin → rb.ymin ≤ q.ymax → rb.ymax ≥ q.ymin →
        queryParquetWithBbox [row] q none = [row]) := by
  refine ⟨?_, ?_, ?_, ?_⟩
  · intro a b h
    exact ⟨touching_not_intersect a b h, touching_not_intersect_symm a b h⟩
  · intro parse row q rb hrb h
    unfold arrowRowToFeature
    rw [hrb]
    simp [touching_not_intersect q rb h]
  · intro t q pre post item ib hib h
    unfold getFilesFromStac
    rw [List.filterMap_append, List.filterMap_append, List.filterMap_cons]
    have hnone :
        (if item.collection == t && item.itemKind == "Feature" then
          match item.bbox? with
          | some ib =>
            if bboxIntersects q ib then
              match (match item.awsHttps with
                     | some a => some a
                     | none => item.awsS3) with
              | some a => if a.href != "" then some (stripAssetHref a.href) else none
              | none => none
            else none
          | none => none
        else none) = none := by
      cases hc : (item.collection == t && item.itemKind == "Feature") with
      | false => simp
      | true => simp [hib, touching_not_intersect q ib h]
    rw [hnone]
  · intro row q rb hrb h1 h2 h3 h4
    unfold queryParquetWithBbox
    have hpred : duckdbBboxPredicate rb q = true := by
      unfold duckdbBboxPredicate
      simp only [Bool.and_eq_true, decide_eq_true_eq]
      exact ⟨⟨⟨le_of_eq h1, h2⟩, h3⟩, h4⟩
    simp [List.filter, hrb, hpred]

/-- Witness for C3 (amended) at concrete touching rectangles and rows. -/
theorem claim3_witness :
    bboxIntersects demoQueryBox (BoundingBox.mk 10 0 20 10 : BoundingBox Int) = false ∧
    arrowRowToFeature demoParse demoTouchRow demoQueryBox = none ∧
    queryParquetWithBbox [demoTouchRow] demoQueryBox none = [demoTouchRow] := by
  refine ⟨?_, ?_, ?_⟩
  · exact ((claim3_touching_edge.1 demoQueryBox (BoundingBox.mk 10 0 20 10) rfl)).1
  · exact claim3_touching_edge.2.1 demoParse demoTouchRow demoQueryBox
      (BoundingBox.mk 10 0 20 10) rfl rfl
  · exact claim3_touching_edge.2.2.2 demoTouchRow demoQueryBox
      (BoundingBox.mk 10 0 20 10) rfl rfl (by decide) (by decide) (by decide)

omit [LinearOrderedCommRing α] in

theorem yieldLoop_spec (n : Nat) :
    ∀ (feats : List (Feature α)) (count : Nat), count < n →
    (yieldLoop (some n) feats count).2.1
        = count + (yieldLoop (some n) feats count).1.length
    ∧ count + (yieldLoop (some n) feats count).1.length ≤ n
    ∧ ((yieldLoop (some n) feats count).2.2 = true
        ↔ count + (yieldLoop (some n) feats count).1.length = n) := by
  intro feats
  induction feats with
  | nil =>
    intro count hc
    simp [yieldLoop]
    omega
  | cons f fs ih =>
    intro count hc
    by_cases hstop : count + 1 ≥ n
    · simp [yieldLoop, if_pos hstop]
      omega
    · have hlt : count + 1 < n := by omega
      obtain ⟨ih1, ih2, ih3⟩ := ih (count + 1) hlt
      simp only [yieldLoop, if_neg hstop, List.length_cons]
      refine ⟨by omega, by omega, ?_⟩
      rw [ih3]
      omega

theorem streamLoop_spec (n : Nat) (_hn : 1 ≤ n) (env : BboxEnv α)
    (q : BoundingBox α) :
    ∀ (paths : List String) (count : Nat), count < n →
    count + (traceFeatures (streamLoop env q (some n) paths count)).length ≤ n
    ∧ ∀ j, j < (streamLoop env q (some n) paths count).length →
        count + (traceFeatures ((streamLoop env q (some n) paths count).take j)).length < n := by
  intro paths
  induction paths with
  | nil =>
    intro count hc
    refine ⟨?_, ?_⟩
    · simp [streamLoop, traceFeatures]
      omega
    · intro j hj
      simp [streamLoop] at hj
  | cons path rest ih =>
    intro count hc
    set feats :=
      (if env.useDuckDB then
        readFeaturesFromFileDuckDB env.parse (env.fileRows path) q
          ((some n).map (fun k => k - count))
      else
        readFeaturesFromFileStream env.parse (env.fileRows path) q
          ((some n).map (fun k => k - count))) with hfeats
    obtain ⟨hy1, hy2, hy3⟩ := yieldLoop_spec n feats count hc
    by_cases hstop : (yieldLoop (some n) feats count).2.2 = true
    · have hloop : streamLoop env q (some n) (path :: rest) count
          = [(path, (yieldLoop (some n) feats count).1)] := by
        rw [streamLoop, hfeats]
        simp only [hstop, if_true]
      rw [hloop]
      constructor
      · simp only [traceFeatures, List.flatMap_cons, List.flatMap_nil,
          List.append_nil]
        omega
      · intro j hj
        simp only [List.length_cons, List.length_nil] at hj
        have hj0 : j = 0 := by omega
        rw [hj0]
        simp [traceFeatures]
        omega
    · have hfalse : (yieldLoop (some n) feats count).2.2 = false := by
        simp only [Bool.not_eq_true] at hstop
        exact hstop
      have hcount2 : (yieldLoop (some n) feats count).2.1 < n := by
        rw [hy1]
        rcases lt_or_eq_of_le hy2 with h | h
        · exact h
        · exact absurd (hy3.mpr h) (by simp [hfalse])
      have hloop : streamLoop env q (some n) (path :: rest) count
          = (path, (yieldLoop (some n) feats count).1)
              :: streamLoop env q (some n) rest (yieldLoop (some n) feats count).2.1 := by
        rw [streamLoop, hfeats]
        simp only [hfalse, Bool.false_eq_true, if_false]
      obtain ⟨ihA, ihB⟩ := ih (yieldLoop (some n) feats count).2.1 hcount2
      rw [hloop]
      constructor
      · simp only [traceFeatures, List.flatMap_cons, List.length_append]
        simp only [traceFeatures] at ihA
        omega
      · intro j hj
        cases j with
        | zero =>
          simp [traceFeatures]
          omega
        | succ j2 =>
          simp only [List.length_cons] at hj
          have hj2 := ihB j2 (by omega)
          simp only [List.take_succ_cons, traceFeatures, List.flatMap_cons,
            List.length_append]
          simp only [traceFeatures] at hj2
          omega

/-- Claim C2 (amended): for every limit N >= 1, on either backend,
readByBbox yields at most N features, and every candidate file it opens is
opened while the count of already-yielded features is still strictly below
N — so once the count reaches N no further candidate file is opened.  (For
N = 0 the original claim fails: see the counterexample.) -/
theorem claim2_limit_accounting {α : Type} [LinearOrderedCommRing α]
    (env : BboxEnv α) (t : String) (q : BoundingBox α) (n : Nat) (hn : 1 ≤ n)
    (tr : List (String × List (Feature α)))
    (hok : (readByBboxRun env t q (some n)).2 = Except.ok tr) :
    (traceFeatures tr).length ≤ n
    ∧ ∀ j, j < tr.length → (traceFeatures (tr.take j)).length < n := by
  unfold readByBboxRun at hok
  by_cases h1 : q.xmin ≥ q.xmax ∨ q.ymin ≥ q.ymax
  · rw [if_pos h1] at hok
    simp at hok
  rw [if_neg h1] at hok
  by_cases h2 : q.xmin < -180 ∨ q.xmax > 180 ∨ q.ymin < -90 ∨ q.ymax > 90
  · rw [if_pos h2] at hok
    simp at hok
  rw [if_neg h2] at hok
  cases hrel : env.release with
  | error e =>
    rw [hrel] at hok
    simp at hok
  | ok release =>
    rw [hrel] at hok
    cases hstac : env.stacItems with
    | error e =>
      rw [hstac] at hok
      simp at hok
    | ok items =>
      rw [hstac] at hok
      simp only at hok
      by_cases hp : (getFilesFromStac items t q).isEmpty
      · rw [if_pos hp] at hok
        simp only [Except.ok.injEq] at hok
        rw [← hok]
        simp [traceFeatures]
      · rw [if_neg hp] at hok
        simp only [Except.ok.injEq] at hok
        rw [← hok]
        obtain ⟨hA, hB⟩ := streamLoop_spec n hn env q (getFilesFromStac items t q) 0
          (by omega)
        refine ⟨by omega, ?_⟩
        intro j hj
        have := hB j hj
        omega

/-- Counterexample to claim C2 as stated: with limit 0 on the DuckDB
backend, `options?.limit` is falsy so no SQL LIMIT clause is added, the
first candidate file is opened and queried without a limit, and readByBbox
yields ONE feature — more than the requested 0. -/
theorem claim2_counterexample :
    (readByBboxRun demoBboxEnv "place" demoQueryBox (some 0)).2 =
      Except.ok [("f1", [demoInsideFeature])] ∧
    ¬ (traceFeatures [("f1", [demoInsideFeature])]).length ≤ 0 := by
  constructor
  · rfl
  · decide

/-- Witness for C2 (amended) at limit 1 on the demo environment. -/
theorem claim2_witness :
    (traceFeatures [("f1", [demoInsideFeature])]).length ≤ 1
    ∧ ∀ j, j < ([("f1", [demoInsideFeature])] : List (String × List (Feature Int))).length →
        (traceFeatures (([("f1", [demoInsideFeature])] : List (String × List (Feature Int))).take j)).length < 1 :=
  claim2_limit_accounting demoBboxEnv "place" demoQueryBox 1 (by decide)
    [("f1", [demoInsideFeature])] (by rfl)

/-- Claim C5 (amended): the primary readByBbox rejects a bbox with bad
ordering OR out-of-range coordinates synchronously, before any network
call (the recorded call list is empty); the ALTERNATE readByBbox variant
performs only the ordering check, so only badly-ordered boxes are rejected
there before I/O (an out-of-range but well-ordered box is not: see the
counterexample). -/
theorem claim5_bbox_validation {α : Type} [LinearOrderedCommRing α]
    (env : BboxEnv α) (t : String) (q : BoundingBox α) (limit : Option Nat) :
    ((q.xmin ≥ q.xmax ∨ q.ymin ≥ q.ymax ∨ q.xmin < -180 ∨ q.xmax > 180 ∨
        q.ymin < -90 ∨ q.ymax > 90) →
      (readByBboxRun env t q limit).1 = [] ∧
      ∃ msg, (readByBboxRun env t q limit).2 =
        Except.error (OvertureError.invalidArgument msg))
    ∧ ((q.xmin ≥ q.xmax ∨ q.ymin ≥ q.ymax) →
      (readByBboxAltRun env t q limit).1 = [] ∧
      ∃ msg, (readByBboxAltRun env t q limit).2 =
        Except.error (OvertureError.invalidArgument msg)) := by
  constructor
  · intro hbad
    unfold readByBboxRun
    by_cases h1 : q.xmin ≥ q.xmax ∨ q.ymin ≥ q.ymax
    · rw [if_pos h1]
      exact ⟨rfl, _, rfl⟩
    · rw [if_neg h1]
      have h2 : q.xmin < -180 ∨ q.xmax > 180 ∨ q.ymin < -90 ∨ q.ymax > 90 := by
        rcases hbad with h | h | h | h | h | h
        · exact absurd (Or.inl h) h1
        · exact absurd (Or.inr h) h1
        · exact Or.inl h
        · exact Or.inr (Or.inl h)
        · exact Or.inr (Or.inr (Or.inl h))
        · exact Or.inr (Or.inr (Or.inr h))
      rw [if_pos h2]
      exact ⟨rfl, _, rfl⟩
  · intro hbad
    unfold readByBboxAltRun
    rw [if_pos hbad]
    exact ⟨rfl, _, rfl⟩

/-- Counterexample to claim C5 as stated: on the alternate readByBbox
variant, a well-ordered bbox with xmin = -200 (outside the valid
geographic range) is NOT rejected: the run issues the release fetch and
the STAC index fetch and completes without an InvalidArgument error. -/
theorem claim5_counterexample :
    ((-200 : Int) < -180) ∧
    (readByBboxAltRun demoBboxEnv "place" (BoundingBox.mk (-200) 0 0 10) none).1 =
      [NetCall.fetchRelease, NetCall.fetchStacIndex "2025-01-01.0"] ∧
    ∀ msg, (readByBboxAltRun demoBboxEnv "place" (BoundingBox.mk (-200) 0 0 10) none).2 ≠
      Except.error (OvertureError.invalidArgument msg) := by
  refine ⟨by decide, rfl, ?_⟩
  intro msg hmsg
  rw [show (readByBboxAltRun demoBboxEnv "place"
      (BoundingBox.mk (-200) 0 0 10) none).2 = Except.ok [] from rfl] at hmsg
  exact Except.noConfusion hmsg

/-- Witness for C5 (amended) at a concrete badly-ordered bbox. -/
theorem claim5_witness :
    ((readByBboxRun demoBboxEnv "place" (BoundingBox.mk 10 10 5 20) none).1 = [] ∧
      ∃ msg, (readByBboxRun demoBboxEnv "place" (BoundingBox.mk 10 10 5 20) none).2 =
        Except.error (OvertureError.invalidArgument msg)) ∧
    ((readByBboxAltRun demoBboxEnv "place" (BoundingBox.mk 10 10 5 20) none).1 = [] ∧
      ∃ msg, (readByBboxAltRun demoBboxEnv "place" (BoundingBox.mk 10 10 5 20) none).2 =
        Except.error (OvertureError.invalidArgument msg)) :=
  ⟨(claim5_bbox_validation demoBboxEnv "place" (BoundingBox.mk 10 10 5 20) none).1
      (Or.inl (by decide)),
   (claim5_bbox_validation demoBboxEnv "place" (BoundingBox.mk 10 10 5 20) none).2
      (Or.inl (by decide))⟩

omit [LinearOrderedCommRing α] in

theorem duckdbRowToFeature_badGeom (parse : GeomParser α) (row : Row α)
    (hbad : BadGeometry parse row) : duckdbRowToFeature parse row = none := by
  unfold duckdbRowToFeature
  rcases hbad with hnone | ⟨b, e, hb, he⟩
  · rw [hnone]
  · rw [hb]
    simp [wkbToGeoJSON, he]

theorem arrowRowToFeature_badGeom (parse : GeomParser α) (row : Row α)
    (q : BoundingBox α) (hbad : BadGeometry parse row) :
    arrowRowToFeature parse row q = none := by
  unfold arrowRowToFeature
  cases hrb : (rowBBoxField row).bind completeBBox with
  | none => rfl
  | some rb =>
    dsimp only
    by_cases hint : bboxIntersects q rb = true
    · rw [if_pos hint]
      rcases hbad with hnone | ⟨b, e, hb, he⟩
      · rw [hnone]
      · rw [hb]
        simp [wkbToGeoJSON, he]
    · rw [if_neg hint]

/-- Claim C4: a row whose geometry is missing or fails to decode is skipped
by the streaming path (not yielded, the stream continues over the remaining
rows, and — since the shared count only moves on yielded features — it is
not counted toward the limit), while the single-identifier path fails with
a DecodeError; the decoder wkbToGeoJSON itself is total and returns null
exactly when the underlying parser fails. -/
theorem claim4_decode_failures {α : Type} [LinearOrderedCommRing α] :
    (∀ (parse : GeomParser α) (bytes : List Nat),
        wkbToGeoJSON parse bytes = none ↔ ∃ e, parse bytes = Except.error e)
    ∧ (∀ (parse : GeomParser α) (q : BoundingBox α) (row : Row α),
        BadGeometry parse row →
        arrowRowToFeature parse row q = none ∧ duckdbRowToFeature parse row = none)
    ∧ (∀ (parse : GeomParser α) (q : BoundingBox α) (pre post : List (Row α))
        (row : Row α), BadGeometry parse row →
        readFeaturesFromFileStream parse (pre ++ row :: post) q none =
          readFeaturesFromFileStream parse (pre ++ post) q none)
    ∧ (∀ (env : GersEnv α) (rr : GersRegistryResult α) (id : String)
        (rows : List (Row α)) (row : Row α),
        isValidGersId id = true →
        env.featureRows rr.filepath = Except.ok rows →
        queryFeatureById rows (jsToLowerCase id) = some row →
        BadGeometry env.parse row →
        ∃ msg, (getFeatureByGersId env (some rr) id).2 =
          Except.error (OvertureError.decodeError msg)) := by
  refine ⟨?_, ?_, ?_, ?_⟩
  · intro parse bytes
    cases h : parse bytes with
    | ok g => simp [wkbToGeoJSON, h]
    | error e => simp [wkbToGeoJSON, h]
  · intro parse q row hbad
    exact ⟨arrowRowToFeature_badGeom parse row q hbad,
      duckdbRowToFeature_badGeom parse row hbad⟩
  · intro parse q pre post row hbad
    unfold readFeaturesFromFileStream
    rw [List.filterMap_append, List.filterMap_append, List.filterMap_cons,
      arrowRowToFeature_badGeom parse row q hbad]
  · intro env rr id rows row hvalid hrows hfind hbad
    unfold getFeatureByGersId
    rw [if_pos hvalid]
    dsimp only
    rw [hrows]
    dsimp only
    rw [hfind]
    dsimp only
    rcases hbad with hnone | ⟨b, e, hb, he⟩
    · rw [hnone]
      exact ⟨_, rfl⟩
    · rw [hb]
      dsimp only
      rw [show wkbToGeoJSON env.parse b = none by simp [wkbToGeoJSON, he]]
      exact ⟨_, rfl⟩

/-- Witness for C4 at concrete rows and environments. -/
theorem claim4_witness :
    wkbToGeoJSON demoFailParse [1] = none ∧
    arrowRowToFeature demoParse demoNoGeomRow demoQueryBox = none ∧
    readFeaturesFromFileStream demoParse [demoInsideRow, demoNoGeomRow] demoQueryBox none =
      readFeaturesFromFileStream demoParse [demoInsideRow] demoQueryBox none ∧
    ∃ msg, (getFeatureByGersId demoGersEnvNoGeom (some demoRegistryResult) demoValidId).2 =
      Except.error (OvertureError.decodeError msg) := by
  refine ⟨?_, ?_, ?_, ?_⟩
  · exact (claim4_decode_failures.1 demoFailParse [1]).mpr ⟨"bad wkb", rfl⟩
  · exact (claim4_decode_failures.2.1 demoParse demoQueryBox demoNoGeomRow
      (Or.inl rfl)).1
  · exact claim4_decode_failures.2.2.1 demoParse demoQueryBox [demoInsideRow] []
      demoNoGeomRow (Or.inl rfl)
  · exact claim4_decode_failures.2.2.2 demoGersEnvNoGeom demoRegistryResult
      demoValidId [demoNoGeomFeatureRow] demoNoGeomFeatureRow (by decide) rfl rfl
      (Or.inl rfl)

/-- Claim C6: a string that is not UUID-shaped (8-4-4-4-12 hex groups,
case-insensitive) is rejected by queryGersRegistry and getFeatureByGersId
synchronously with an InvalidArgument error and an empty network-call
trace; a UUID-shaped string is normalized to lowercase before any lookup:
running either operation on the id is identical to running it on the
lowercased id. -/
theorem claim6_gers_id_validation {α : Type} [LinearOrderedCommRing α]
    (env : GersEnv α) (ropt : Option (GersRegistryResult α)) (id : String) :
    (isValidGersId id = false →
      queryGersRegistry env id = ([], Except.error (OvertureError.invalidArgument
        ("Invalid GERS ID format: " ++ id ++ ". Expected UUID format."))) ∧
      getFeatureByGersId env ropt id = ([], Except.error (OvertureError.invalidArgument
        ("Invalid GERS ID format: " ++ id ++ ". Expected UUID format."))))
    ∧ (isValidGersId id = true →
      queryGersRegistry env id = queryGersRegistry env (jsToLowerCase id) ∧
      getFeatureByGersId env ropt id = getFeatureByGersId env ropt (jsToLowerCase id)) := by
  constructor
  · intro hinv
    constructor
    · unfold queryGersRegistry
      rw [if_neg (by rw [hinv]; exact Bool.false_ne_true)]
    · unfold getFeatureByGersId
      rw [if_neg (by rw [hinv]; exact Bool.false_ne_true)]
  · intro hval
    have hval2 : isValidGersId (jsToLowerCase id) = true := by
      rw [isValidGersId_toLower]
      exact hval
    constructor
    · unfold queryGersRegistry
      rw [if_pos hval, if_pos hval2, jsToLowerCase_idem]
    · unfold getFeatureByGersId
      rw [if_pos hval, if_pos hval2, jsToLowerCase_idem]

/-- Witness for C6 at a malformed id and at a mixed-case valid id. -/
theorem claim6_witness :
    queryGersRegistry demoGersEnvNoGeom "not-a-uuid" =
      ([], Except.error (OvertureError.invalidArgument
        "Invalid GERS ID format: not-a-uuid. Expected UUID format.")) ∧
    queryGersRegistry demoGersEnvNoGeom "ABCDEF01-2345-6789-ABCD-EF0123456789" =
      queryGersRegistry demoGersEnvNoGeom
        (jsToLowerCase "ABCDEF01-2345-6789-ABCD-EF0123456789") :=
  ⟨((claim6_gers_id_validation demoGersEnvNoGeom none "not-a-uuid").1
      (by decide)).1,
   ((claim6_gers_id_validation demoGersEnvNoGeom none
      "ABCDEF01-2345-6789-ABCD-EF0123456789").2 (by decide)).1⟩

/-- Counterexample to claim C8 as stated: in the single-identifier path the
assembled feature's properties exclude only the `geometry` column — a
`bbox` column of the row stays in the properties mapping. -/
theorem claim8_counterexample :
    (getFeatureByGersId demoGersEnvBBoxRow (some demoRegistryResult) demoValidId).2 =
      Except.ok (some
        { type := "Feature"
          id := some demoValidId
          geometry := { type := "Point", coordinates := [1, 2] }
          properties :=
            [("id", ColValue.str "abcdef01-2345-6789-abcd-ef0123456789"),
             ("bbox", ColValue.bboxVal ⟨some 1, some 1, some 2, some 2⟩)]
          bbox := none }) ∧
    ("bbox", ColValue.bboxVal ⟨some 1, some 1, some 2, some 2⟩) ∈
      ([("id", ColValue.str "abcdef01-2345-6789-abcd-ef0123456789"),
        ("bbox", ColValue.bboxVal ⟨some 1, some 1, some 2, some 2⟩)] :
          List (String × ColValue Int)) := by
  constructor
  · rfl
  · decide

/-- Claim C8 (amended): on the streamByBbox paths (both row converters) the
assembled feature's properties are exactly the row's columns minus the
`geometry` and `bbox` columns; on the single-identifier path
(getFeatureByGersId) the properties are exactly the row's columns minus
`geometry` ONLY — a bbox column is kept there. -/
theorem claim8_properties_exclusion {α : Type} [LinearOrderedCommRing α] :
    (∀ (parse : GeomParser α) (row : Row α) (f : Feature α),
        duckdbRowToFeature parse row = some f →
        ∀ kv : String × ColValue α, kv ∈ f.properties ↔
          (kv ∈ row ∧ kv.1 ≠ "geometry" ∧ kv.1 ≠ "bbox"))
    ∧ (∀ (parse : GeomParser α) (row : Row α) (q : BoundingBox α) (f : Feature α),
        arrowRowToFeature parse row q = some f →
        ∀ kv : String × ColValue α, kv ∈ f.properties ↔
          (kv ∈ row ∧ kv.1 ≠ "geometry" ∧ kv.1 ≠ "bbox"))
    ∧ (∀ (env : GersEnv α) (rr : GersRegistryResult α) (id : String)
        (rows : List (Row α)) (row : Row α) (f : Feature α),
        env.featureRows rr.filepath = Except.ok rows →
        queryFeatureById rows (jsToLowerCase id) = some row →
        (getFeatureByGersId env (some rr) id).2 = Except.ok (some f) →
        ∀ kv : String × ColValue α, kv ∈ f.properties ↔
          (kv ∈ row ∧ kv.1 ≠ "geometry")) := by
  refine ⟨?_, ?_, ?_⟩
  · intro parse row f hf kv
    unfold duckdbRowToFeature at hf
    cases hg : rowGeometryBytes row with
    | none =>
      rw [hg] at hf
      exact absurd hf (by simp)
    | some bytes =>
      rw [hg] at hf
      dsimp only at hf
      cases hw : wkbToGeoJSON parse bytes with
      | none =>
        rw [hw] at hf
        exact absurd hf (by simp)
      | some geom =>
        rw [hw] at hf
        simp only [Option.some.injEq] at hf
        rw [← hf]
        simp [List.mem_filter, bne_iff_ne, and_assoc]
  · intro parse row q f hf kv
    unfold arrowRowToFeature at hf
    cases hrb : (rowBBoxField row).bind completeBBox with
    | none =>
      rw [hrb] at hf
      exact absurd hf (by simp)
    | some rb =>
      rw [hrb] at hf
      dsimp only at hf
      by_cases hint : bboxIntersects q rb = true
      · rw [if_pos hint] at hf
        cases hg : rowGeometryBytes row with
        | none =>
          rw [hg] at hf
          exact absurd hf (by simp)
        | some bytes =>
          rw [hg] at hf
          dsimp only at hf
          cases hw : wkbToGeoJSON parse bytes with
          | none =>
            rw [hw] at hf
            exact absurd hf (by simp)
          | some geom =>
            rw [hw] at hf
            simp only [Option.some.injEq] at hf
            rw [← hf]
            simp [List.mem_filter, bne_iff_ne, and_assoc]
      · rw [if_neg hint] at hf
        exact absurd hf (by simp)
  · intro env rr id rows row f hrows hfind hok kv
    unfold getFeatureByGersId at hok
    by_cases hvalid : isValidGersId id = true
    · rw [if_pos hvalid] at hok
      dsimp only at hok
      rw [hrows] at hok
      dsimp only at hok
      rw [hfind] at hok
      dsimp only at hok
      cases hg : rowGeometryBytes row with
      | none =>
        rw [hg] at hok
        exact absurd hok (by simp)
      | some bytes =>
        rw [hg] at hok
        dsimp only at hok
        cases hw : wkbToGeoJSON env.parse bytes with
        | none =>
          rw [hw] at hok
          exact absurd hok (by simp)
        | some geom =>
          rw [hw] at hok
          simp only [Except.ok.injEq, Option.some.injEq] at hok
          rw [← hok]
          simp [List.mem_filter, bne_iff_ne]
    · rw [if_neg hvalid] at hok
      exact absurd hok (by simp)

/-- Witness for C8 (amended) at a concrete streamed row. -/
theorem claim8_witness :
    (("id", ColValue.str "r2") ∈ demoInsideFeature.properties) ∧
    ¬ (("bbox", ColValue.bboxVal ⟨some 1, some 1, some 2, some 2⟩) ∈
        demoInsideFeature.properties) := by
  have h := claim8_properties_exclusion.2.1 demoParse demoInsideRow demoQueryBox
    demoInsideFeature (by rfl)
  constructor
  · exact (h ("id", ColValue.str "r2")).mpr ⟨by decide, by decide, by decide⟩
  · intro hmem
    exact ((h ("bbox", ColValue.bboxVal ⟨some 1, some 1, some 2, some 2⟩)).mp
      hmem).2.2 rfl

end Overture
